import Mathlib

/-!
Shallow embedding of the go-json-rest-middleware-tokenauth package
(token-auth middleware for go-json-rest), together with proofs about it.

Go strings are byte strings; we model them as lists of naturals, each
element standing for one byte.  The two variants of the package present
in the repository are both embedded: the variant whose header decoder
returns the decoded bytes and that carries a `TokenEntropy` field
(token.go), and the variant that additionally accepts an `access_token`
query parameter and returns the wire-encoded value from its decoder.
-/

namespace TokenAuth

/-- A Go string: a sequence of bytes. -/
abbrev GoString := List Nat

/-- The bytes of the literal "Token". -/
def strToken : GoString := [84, 111, 107, 101, 110]

/-- The bytes of the literal "Token realm=" used by `unauthorized`. -/
def strTokenRealmEq : GoString := [84, 111, 107, 101, 110, 32, 114, 101, 97, 108, 109, 61]

/-- The bytes of the literal "Not Authorized" used by `unauthorized`. -/
def strNotAuthorized : GoString := [78, 111, 116, 32, 65, 117, 116, 104, 111, 114, 105, 122, 101, 100]

/-! ### encoding/base64, URLEncoding (URL-safe alphabet, padded)

The Go `base64.URLEncoding` scheme uses the alphabet A-Z a-z 0-9 - _ with `=`
padding, and its decoder ignores the bytes `\r` (13) and `\n` (10). -/

/-- The URL-safe base64 alphabet: index 0..63 to byte value. -/
def encChar (n : Nat) : Nat :=
  if n < 26 then 65 + n
  else if n < 52 then 97 + (n - 26)
  else if n < 62 then 48 + (n - 52)
  else if n = 62 then 45
  else 95

/-- Inverse of the URL-safe base64 alphabet: byte value to index. -/
def decChar (c : Nat) : Option Nat :=
  if 65 ≤ c ∧ c ≤ 90 then some (c - 65)
  else if 97 ≤ c ∧ c ≤ 122 then some (c - 97 + 26)
  else if 48 ≤ c ∧ c ≤ 57 then some (c - 48 + 52)
  else if c = 45 then some 62
  else if c = 95 then some 63
  else none

/-- Go `base64.URLEncoding.EncodeToString`: encode bytes in 3-byte groups,
padding the final group with `=` (byte 61). -/
def base64Encode : List Nat → List Nat
  | b0 :: b1 :: b2 :: rest =>
    encChar (b0 / 4) :: encChar (b0 % 4 * 16 + b1 / 16) ::
      encChar (b1 % 16 * 4 + b2 / 64) :: encChar (b2 % 64) :: base64Encode rest
  | [b0, b1] => [encChar (b0 / 4), encChar (b0 % 4 * 16 + b1 / 16), encChar (b1 % 16 * 4), 61]
  | [b0] => [encChar (b0 / 4), encChar (b0 % 4 * 16), 61, 61]
  | [] => []

/-- Go `base64.URLEncoding.DecodeString` after newline filtering: decode
4-character quantums; the final quantum may end in one or two `=` pads;
trailing bits left over by a padded quantum are ignored (the Go default, non-Strict, behaviour); anything else is a decode error. -/
def base64DecodeCore : List Nat → Option (List Nat)
  | [] => some []
  | c0 :: c1 :: c2 :: c3 :: rest =>
    match decChar c0, decChar c1 with
    | some v0, some v1 =>
      if c2 = 61 then
        if c3 = 61 ∧ rest = [] then some [v0 * 4 + v1 / 16] else none
      else
        match decChar c2 with
        | some v2 =>
          if c3 = 61 then
            if rest = [] then some [v0 * 4 + v1 / 16, v1 % 16 * 16 + v2 / 4] else none
          else
            match decChar c3 with
            | some v3 =>
              match base64DecodeCore rest with
              | some ds => some ((v0 * 4 + v1 / 16) :: (v1 % 16 * 16 + v2 / 4) :: (v2 % 4 * 64 + v3) :: ds)
              | none => none
            | none => none
        | none => none
    | _, _ => none
  | _ => none

/-- Go `base64.URLEncoding.DecodeString`: the decoder ignores carriage
returns (13) and newlines (10) before decoding quantums. -/
def base64Decode (s : List Nat) : Option (List Nat) :=
  base64DecodeCore (s.filter fun c => decide (c ≠ 13) && decide (c ≠ 10))

theorem decChar_encChar : ∀ v : Nat, v < 64 → decChar (encChar v) = some v := by decide

theorem encChar_ge_45 (n : Nat) : 45 ≤ encChar n := by
  unfold encChar
  split
  · omega
  · split
    · omega
    · split
      · omega
      · split
        · omega
        · omega

theorem encChar_ne_61 (n : Nat) : encChar n ≠ 61 := by
  unfold encChar
  split
  · omega
  · split
    · omega
    · split
      · omega
      · split
        · omega
        · omega

theorem mem_base64Encode_ge (bs : List Nat) : ∀ c ∈ base64Encode bs, 45 ≤ c := by
  induction bs using base64Encode.induct with
  | case1 b0 b1 b2 rest ih =>
    intro c hc
    simp only [base64Encode, List.mem_cons] at hc
    rcases hc with h | h | h | h | h
    · exact h ▸ encChar_ge_45 _
    · exact h ▸ encChar_ge_45 _
    · exact h ▸ encChar_ge_45 _
    · exact h ▸ encChar_ge_45 _
    · exact ih c h
  | case2 b0 b1 =>
    intro c hc
    simp only [base64Encode, List.mem_cons, List.not_mem_nil, or_false] at hc
    rcases hc with h | h | h | h
    · exact h ▸ encChar_ge_45 _
    · exact h ▸ encChar_ge_45 _
    · exact h ▸ encChar_ge_45 _
    · omega
  | case3 b0 =>
    intro c hc
    simp only [base64Encode, List.mem_cons, List.not_mem_nil, or_false] at hc
    rcases hc with h | h | h | h
    · exact h ▸ encChar_ge_45 _
    · exact h ▸ encChar_ge_45 _
    · omega
    · omega
  | case4 =>
    intro c hc
    simp [base64Encode] at hc

theorem filter_base64Encode (bs : List Nat) :
    ((base64Encode bs).filter fun c => decide (c ≠ 13) && decide (c ≠ 10)) = base64Encode bs := by
  apply List.filter_eq_self.mpr
  intro c hc
  have := mem_base64Encode_ge bs c hc
  simp only [Bool.and_eq_true, decide_eq_true_eq]
  omega

theorem base64DecodeCore_encode (bs : List Nat) (h : ∀ b ∈ bs, b < 256) :
    base64DecodeCore (base64Encode bs) = some bs := by
  induction bs using base64Encode.induct with
  | case1 b0 b1 b2 rest ih =>
    have hb0 : b0 < 256 := h b0 (by simp)
    have hb1 : b1 < 256 := h b1 (by simp)
    have hb2 : b2 < 256 := h b2 (by simp)
    have ih2 : base64DecodeCore (base64Encode rest) = some rest :=
      ih fun b hb => h b (by simp [hb])
    rw [base64Encode, base64DecodeCore]
    simp [decChar_encChar (b0 / 4) (by omega),
      decChar_encChar (b0 % 4 * 16 + b1 / 16) (by omega),
      decChar_encChar (b1 % 16 * 4 + b2 / 64) (by omega),
      decChar_encChar (b2 % 64) (by omega),
      encChar_ne_61, ih2]
    omega
  | case2 b0 b1 =>
    have hb0 : b0 < 256 := h b0 (by simp)
    have hb1 : b1 < 256 := h b1 (by simp)
    rw [base64Encode, base64DecodeCore]
    simp [decChar_encChar (b0 / 4) (by omega),
      decChar_encChar (b0 % 4 * 16 + b1 / 16) (by omega),
      decChar_encChar (b1 % 16 * 4) (by omega),
      encChar_ne_61]
    omega
  | case3 b0 =>
    have hb0 : b0 < 256 := h b0 (by simp)
    rw [base64Encode, base64DecodeCore]
    simp [decChar_encChar (b0 / 4) (by omega),
      decChar_encChar (b0 % 4 * 16) (by omega)]
    omega
  | case4 => rfl

/-- Round trip: decoding an encoded byte string gives the bytes back. -/
theorem base64Decode_encode (bs : List Nat) (h : ∀ b ∈ bs, b < 256) :
    base64Decode (base64Encode bs) = some bs := by
  rw [base64Decode, filter_base64Encode]
  exact base64DecodeCore_encode bs h

/-- Length of an encoding: Go `EncodedLen` for a padded encoding. -/
theorem base64Encode_length (bs : List Nat) :
    (base64Encode bs).length = 4 * ((bs.length + 2) / 3) := by
  induction bs using base64Encode.induct with
  | case1 b0 b1 b2 rest ih =>
    simp only [base64Encode, List.length_cons, ih]
    omega
  | case2 b0 b1 => simp [base64Encode]
  | case3 b0 => simp [base64Encode]
  | case4 => rfl

/-! ### strings.SplitN(header, " ", 2) -/

/-- Scan up to the first space (byte 32): the part before it, and the rest
after it when one exists. -/
def breakSpace : List Nat → List Nat × Option (List Nat)
  | [] => ([], none)
  | c :: rest =>
    if c = 32 then ([], some rest)
    else
      let p := breakSpace rest
      (c :: p.1, p.2)

/-- Go `strings.SplitN(s, " ", 2)`: one part when `s` has no space, else
the part before the first space and the whole remainder after it. -/
def splitN2 (s : List Nat) : List (List Nat) :=
  match breakSpace s with
  | (a, none) => [a]
  | (a, some b) => [a, b]

theorem breakSpace_append_space (a v : List Nat) (ha : 32 ∉ a) :
    breakSpace (a ++ 32 :: v) = (a, some v) := by
  induction a with
  | nil => simp [breakSpace]
  | cons c rest ih =>
    have hc : c ≠ 32 := fun hc => ha (by simp [hc])
    have hrest : 32 ∉ rest := fun hr => ha (by simp [hr])
    simp [breakSpace, hc, ih hrest]

theorem breakSpace_some (h : List Nat) (a v : List Nat) :
    breakSpace h = (a, some v) → h = a ++ 32 :: v ∧ 32 ∉ a := by
  induction h generalizing a with
  | nil => intro hb; simp [breakSpace] at hb
  | cons c rest ih =>
    intro hb
    by_cases hc : c = 32
    · rw [breakSpace, if_pos hc] at hb
      injection hb with h1 h2
      injection h2 with h2
      subst h2
      constructor
      · rw [← h1]
        simp [hc]
      · rw [← h1]
        simp
    · simp only [breakSpace, if_neg hc] at hb
      rcases hr : breakSpace rest with ⟨a0, o⟩
      rw [hr] at hb
      simp only [Prod.mk.injEq] at hb
      obtain ⟨h1, h2⟩ := hb
      subst h2
      obtain ⟨hr1, hr2⟩ := ih a0 hr
      subst h1
      constructor
      · simp [hr1]
      · simp only [List.mem_cons]
        push_neg
        exact ⟨fun h32 => hc h32.symm, hr2⟩

/-! ### decodeAuthHeader -/

/-- The two distinct failure modes of the header decoder. -/
inductive AuthError where
  | malformedHeader
  | invalidEncoding
deriving DecidableEq, Repr

/-- token.go `decodeAuthHeader`: split on the first space into exactly two
parts whose first must be the literal "Token", then base64-decode the
second part; the DECODED bytes are returned. -/
def decodeAuthHeader (header : List Nat) : Except AuthError (List Nat) :=
  match splitN2 header with
  | [scheme, value] =>
    if scheme = strToken then
      match base64Decode value with
      | some token => Except.ok token
      | none => Except.error AuthError.invalidEncoding
    else Except.error AuthError.malformedHeader
  | _ => Except.error AuthError.malformedHeader

/-- The `decodeAuthHeader` of the query-parameter variant: same checks, but it
returns the still-encoded wire value `parts[1]`. -/
def decodeAuthHeaderWire (header : List Nat) : Except AuthError (List Nat) :=
  match splitN2 header with
  | [scheme, value] =>
    if scheme = strToken then
      match base64Decode value with
      | some _ => Except.ok value
      | none => Except.error AuthError.invalidEncoding
    else Except.error AuthError.malformedHeader
  | _ => Except.error AuthError.malformedHeader

theorem splitN2_token (v : List Nat) : splitN2 (strToken ++ 32 :: v) = [strToken, v] := by
  rw [splitN2, breakSpace_append_space strToken v (by decide)]

/-- The split yields `["Token", v]` exactly when the header is
"Token " followed by `v`. -/
theorem splitN2_eq_token_iff (h v : List Nat) :
    splitN2 h = [strToken, v] ↔ h = strToken ++ 32 :: v := by
  constructor
  · intro hs
    rw [splitN2] at hs
    rcases hb : breakSpace h with ⟨a, o⟩
    rw [hb] at hs
    cases o with
    | none => simp at hs
    | some b =>
      simp at hs
      obtain ⟨h1, _⟩ := breakSpace_some h a b hb
      rw [h1, hs.1, hs.2]
  · intro hh
    rw [hh]
    exact splitN2_token v

theorem breakSpace_none (h : List Nat) (a : List Nat) :
    breakSpace h = (a, none) → h = a ∧ 32 ∉ a := by
  induction h generalizing a with
  | nil =>
    intro hb
    injection hb with h1 h2
    subst h1
    simp
  | cons c rest ih =>
    intro hb
    by_cases hc : c = 32
    · rw [breakSpace, if_pos hc] at hb
      injection hb with h1 h2
      exact absurd h2 (by simp)
    · simp only [breakSpace, if_neg hc] at hb
      rcases hr : breakSpace rest with ⟨a0, o⟩
      rw [hr] at hb
      simp only [Prod.mk.injEq] at hb
      obtain ⟨h1, h2⟩ := hb
      subst h2
      obtain ⟨hr1, hr2⟩ := ih a0 hr
      subst h1
      constructor
      · simp [hr1]
      · simp only [List.mem_cons]
        push_neg
        exact ⟨fun h32 => hc h32.symm, hr2⟩

/-- `SplitN` shape: either a single part (no space in the input) or two
parts split at the first space. -/
theorem splitN2_cases (h : List Nat) :
    (splitN2 h = [h] ∧ 32 ∉ h) ∨
      ∃ a b, splitN2 h = [a, b] ∧ 32 ∉ a ∧ h = a ++ 32 :: b := by
  rw [splitN2]
  rcases hb : breakSpace h with ⟨a, o⟩
  cases o with
  | none =>
    obtain ⟨h1, h2⟩ := breakSpace_none h a hb
    subst h1
    exact Or.inl ⟨rfl, h2⟩
  | some b =>
    obtain ⟨h1, h2⟩ := breakSpace_some h a b hb
    exact Or.inr ⟨a, b, rfl, h2, h1⟩

theorem decodeAuthHeader_not_token (h : List Nat) (hn : ∀ v, h ≠ strToken ++ 32 :: v) :
    decodeAuthHeader h = Except.error AuthError.malformedHeader := by
  rw [decodeAuthHeader]
  rcases splitN2_cases h with ⟨hs, _⟩ | ⟨a, b, hs, _, hh⟩
  · rw [hs]
  · rw [hs]
    have hne : a ≠ strToken := fun ht => hn b (by rw [← ht]; exact hh)
    simp [hne]

theorem decodeAuthHeader_token (v : List Nat) :
    decodeAuthHeader (strToken ++ 32 :: v) =
      match base64Decode v with
      | some t => Except.ok t
      | none => Except.error AuthError.invalidEncoding := by
  rw [decodeAuthHeader, splitN2_token]
  simp

theorem decodeAuthHeaderWire_not_token (h : List Nat) (hn : ∀ v, h ≠ strToken ++ 32 :: v) :
    decodeAuthHeaderWire h = Except.error AuthError.malformedHeader := by
  rw [decodeAuthHeaderWire]
  rcases splitN2_cases h with ⟨hs, _⟩ | ⟨a, b, hs, _, hh⟩
  · rw [hs]
  · rw [hs]
    have hne : a ≠ strToken := fun ht => hn b (by rw [← ht]; exact hh)
    simp [hne]

theorem decodeAuthHeaderWire_token (v : List Nat) :
    decodeAuthHeaderWire (strToken ++ 32 :: v) =
      match base64Decode v with
      | some _ => Except.ok v
      | none => Except.error AuthError.invalidEncoding := by
  rw [decodeAuthHeaderWire, splitN2_token]
  simp

/-! ### crypto/subtle and Equal -/

/-- Go `subtle.ConstantTimeCompare`: 0 when the lengths differ; otherwise
OR together the XOR of each byte pair and test the accumulator against 0. -/
def constantTimeCompare (x y : List Nat) : Nat :=
  if x.length ≠ y.length then 0
  else if (List.zipWith Nat.xor x y).foldl Nat.lor 0 = 0 then 1 else 0

/-- `Equal` does constant-time XOR comparison of two tokens. -/
def Equal (a b : List Nat) : Bool :=
  constantTimeCompare a b == 1

/-! ### crypto/rand and New -/

/-- Go `make([]byte, n)` with an `int` length: a runtime panic (modelled
as `none`) when the length is negative, else a zeroed buffer. -/
def makeByteSlice (n : Int) : Option (List Nat) :=
  if n < 0 then none else some (List.replicate n.toNat 0)

/-- `New` generates a new random token: allocate `TokenEntropy` bytes,
fill them from `crypto/rand` (whose outcome — the random bytes or a read
error — is the `readResult` parameter), and base64-encode them.  The
outer `Option` is `none` exactly when the function panics instead of
returning. -/
def New (tokenEntropy : Int) (readResult : Except GoString (List Nat)) :
    Option (Except GoString (List Nat)) :=
  match makeByteSlice tokenEntropy with
  | none => none
  | some _ =>
    match readResult with
    | Except.error e => some (Except.error e)
    | Except.ok bs => some (Except.ok (base64Encode bs))

/-! ### The middleware: configuration, setup and per-request body -/

/-- An incoming request, as far as the middleware looks at it:
`request.Header.Get("Authorization")` (empty when absent) and
`request.URL.Query().Get("access_token")` (empty when absent). -/
structure Request where
  authHeader : GoString
  accessToken : GoString

/-- The `AuthTokenMiddleware` struct of token.go: the realm, the two
callbacks (`nil` modelled as `none`), and the token entropy (a Go `int`). -/
structure MwConfig where
  realm : GoString
  authenticator : Option (GoString → GoString)
  authorizer : Option (Request → Bool)
  tokenEntropy : Int

/-- A configuration that passed the setup checks at the top of
`MiddlewareFunc`: both required fields present and defaults filled in. -/
structure ResolvedConfig where
  realm : GoString
  authenticator : GoString → GoString
  authorizer : Request → Bool
  tokenEntropy : Int

/-- The two `log.Fatal` calls at the top of `MiddlewareFunc`. -/
inductive ConfigError where
  | realmRequired
  | authenticatorRequired
deriving DecidableEq, Repr

/-- The setup prefix of `MiddlewareFunc` (run once, when the middleware
wraps its handler): reject an empty realm or a missing authenticator
fatally, default the authorizer to always-true and a zero entropy to 32. -/
def middlewareSetup (mw : MwConfig) : Except ConfigError ResolvedConfig :=
  if mw.realm = [] then Except.error ConfigError.realmRequired
  else
    match mw.authenticator with
    | none => Except.error ConfigError.authenticatorRequired
    | some auth =>
      let authorizer :=
        match mw.authorizer with
        | none => fun _ => true
        | some a => a
      let entropy := if mw.tokenEntropy = 0 then 32 else mw.tokenEntropy
      Except.ok ⟨mw.realm, auth, authorizer, entropy⟩

/-- The observable effects of one run of the per-request handler: the
response written (status, body, WWW-Authenticate header), whether the
wrapped handler was invoked, the value written to
`request.Env["REMOTE_USER"]`, and the argument the `Authenticator` was
called with (`none` when it was never invoked). -/
structure HandlerState where
  responseStatus : Option Nat
  responseBody : Option GoString
  challengeHeader : Option GoString
  handlerCalled : Bool
  envRemoteUser : Option GoString
  authenticatorArg : Option GoString
deriving DecidableEq, Repr

/-- The state before the handler runs: nothing written, nothing called. -/
def initState : HandlerState :=
  ⟨none, none, none, false, none, none⟩

/-- `unauthorized`: set `WWW-Authenticate: Token realm=<realm>` and write
a 401 response with the body "Not Authorized". -/
def unauthorized (realm : GoString) (st : HandlerState) : HandlerState :=
  { st with
    challengeHeader := some (strTokenRealmEq ++ realm)
    responseStatus := some 401
    responseBody := some strNotAuthorized }

/-- The per-request closure returned by the token.go `MiddlewareFunc`. -/
def middlewareBody (cfg : ResolvedConfig) (req : Request) : HandlerState :=
  if req.authHeader = [] then unauthorized cfg.realm initState
  else
    match decodeAuthHeader req.authHeader with
    | Except.error _ => unauthorized cfg.realm initState
    | Except.ok token =>
      if cfg.authenticator token = [] then
        unauthorized cfg.realm { initState with authenticatorArg := some token }
      else if cfg.authorizer req = false then
        unauthorized cfg.realm { initState with authenticatorArg := some token }
      else
        { initState with
          authenticatorArg := some token
          envRemoteUser := some (cfg.authenticator token)
          handlerCalled := true }

/-- The per-request closure of the query-parameter variant: a non-empty
`access_token` query parameter is used as the token directly; only
otherwise is the `Authorization` header consulted and decoded. -/
def middlewareBodyQ (cfg : ResolvedConfig) (req : Request) : HandlerState :=
  if req.accessToken.length > 0 then
    if cfg.authenticator req.accessToken = [] then
      unauthorized cfg.realm { initState with authenticatorArg := some req.accessToken }
    else if cfg.authorizer req = false then
      unauthorized cfg.realm { initState with authenticatorArg := some req.accessToken }
    else
      { initState with
        authenticatorArg := some req.accessToken
        envRemoteUser := some (cfg.authenticator req.accessToken)
        handlerCalled := true }
  else if req.authHeader = [] then unauthorized cfg.realm initState
  else
    match decodeAuthHeaderWire req.authHeader with
    | Except.error _ => unauthorized cfg.realm initState
    | Except.ok token =>
      if cfg.authenticator token = [] then
        unauthorized cfg.realm { initState with authenticatorArg := some token }
      else if cfg.authorizer req = false then
        unauthorized cfg.realm { initState with authenticatorArg := some token }
      else
        { initState with
          authenticatorArg := some token
          envRemoteUser := some (cfg.authenticator token)
          handlerCalled := true }

theorem lor_eq_zero_iff (x y : Nat) : Nat.lor x y = 0 ↔ x = 0 ∧ y = 0 := by
  show x ||| y = 0 ↔ x = 0 ∧ y = 0
  constructor
  · intro h
    constructor
    · apply Nat.eq_of_testBit_eq
      intro i
      have hbit := congrArg (fun n => Nat.testBit n i) h
      simp only [Nat.testBit_or] at hbit
      simp at hbit ⊢
      exact hbit.1
    · apply Nat.eq_of_testBit_eq
      intro i
      have hbit := congrArg (fun n => Nat.testBit n i) h
      simp only [Nat.testBit_or] at hbit
      simp at hbit ⊢
      exact hbit.2
  · rintro ⟨rfl, rfl⟩
    rfl

theorem foldl_lor_eq_zero (l : List Nat) : ∀ a, l.foldl Nat.lor a = 0 ↔ a = 0 ∧ ∀ x ∈ l, x = 0 := by
  induction l with
  | nil => intro a; simp
  | cons c rest ih =>
    intro a
    simp only [List.foldl_cons, ih, lor_eq_zero_iff]
    constructor
    · rintro ⟨⟨h1, h2⟩, h3⟩
      refine ⟨h1, ?_⟩
      intro x hx
      rcases List.mem_cons.mp hx with h | h
      · exact h ▸ h2
      · exact h3 x h
    · rintro ⟨h1, h2⟩
      exact ⟨⟨h1, h2 c (by simp)⟩, fun x hx => h2 x (by simp [hx])⟩

theorem zipWith_xor_all_zero (a : List Nat) : ∀ b : List Nat, a.length = b.length →
    ((∀ x ∈ List.zipWith Nat.xor a b, x = 0) ↔ a = b) := by
  induction a with
  | nil =>
    intro b hb
    cases b with
    | nil => simp
    | cons y ys => simp at hb
  | cons x xs ih =>
    intro b hb
    cases b with
    | nil => simp at hb
    | cons y ys =>
      have hlen : xs.length = ys.length := by simpa using hb
      simp only [List.zipWith_cons_cons, List.mem_cons, List.cons.injEq]
      constructor
      · intro hz
        have hx : Nat.xor x y = 0 := hz _ (Or.inl rfl)
        have hxy : x = y := by
          have : x ^^^ y = 0 := hx
          exact Nat.xor_eq_zero.mp this
        exact ⟨hxy, (ih ys hlen).mp fun z hz2 => hz z (Or.inr hz2)⟩
      · rintro ⟨rfl, rfl⟩
        intro z hz
        rcases hz with h | h
        · rw [h]
          show x ^^^ x = 0
          exact Nat.xor_self x
        · exact ((ih _ hlen).mpr rfl) z h

/-- Claim C5: `Equal(a, b)` returns true exactly when the two byte strings
are identical, for all pairs, empty and of differing lengths included. -/
theorem Equal_iff_eq (a b : List Nat) : Equal a b = true ↔ a = b := by
  rw [Equal, constantTimeCompare]
  by_cases hlen : a.length = b.length
  · rw [if_neg (by omega)]
    by_cases hz : (List.zipWith Nat.xor a b).foldl Nat.lor 0 = 0
    · rw [if_pos hz]
      have h2 := ((foldl_lor_eq_zero _ 0).mp hz).2
      have hab := (zipWith_xor_all_zero a b hlen).mp h2
      simp [hab]
    · rw [if_neg hz]
      simp only [beq_iff_eq]
      constructor
      · omega
      · intro hab
        exact absurd ((foldl_lor_eq_zero _ 0).mpr
          ⟨rfl, (zipWith_xor_all_zero a b hlen).mpr hab⟩) hz
  · rw [if_pos (by omega)]
    simp only [beq_iff_eq]
    constructor
    · omega
    · intro hab
      exact absurd (congrArg List.length hab) hlen

theorem token_append_inj (v w : List Nat) :
    strToken ++ 32 :: v = strToken ++ 32 :: w → v = w := by
  intro h
  simpa using h

/-- Claim C2: for every byte string `b`, decoding the header value
"Token " followed by the URL-safe base64 encoding of `b` succeeds and
returns exactly the decoded bytes `b`. -/
theorem decodeAuthHeader_encode_roundtrip (b : List Nat) (h : ∀ x ∈ b, x < 256) :
    decodeAuthHeader (strToken ++ 32 :: base64Encode b) = Except.ok b := by
  rw [decodeAuthHeader_token, base64Decode_encode b h]

/-- Witness for claim C2 at the concrete byte string [0, 255, 7]. -/
theorem decodeAuthHeader_encode_roundtrip_witness :
    decodeAuthHeader (strToken ++ 32 :: base64Encode [0, 255, 7]) = Except.ok [0, 255, 7] :=
  decodeAuthHeader_encode_roundtrip [0, 255, 7] (by decide)

/-- Claim C3: the decoder fails with the malformed-header error exactly
when the header is not "Token " followed by anything (wrong scheme,
missing value, no separator); it fails with the distinct
invalid-encoding error exactly when the header is "Token " followed by a
value that is not syntactically valid URL-safe base64; it succeeds in
all remaining cases. -/
theorem decodeAuthHeader_error_characterization (h : List Nat) :
    (decodeAuthHeader h = Except.error AuthError.malformedHeader ↔
      ∀ v, h ≠ strToken ++ 32 :: v) ∧
    (decodeAuthHeader h = Except.error AuthError.invalidEncoding ↔
      ∃ v, h = strToken ++ 32 :: v ∧ base64Decode v = none) ∧
    ((∃ t, decodeAuthHeader h = Except.ok t) ↔
      ∃ v, h = strToken ++ 32 :: v ∧ (base64Decode v).isSome) := by
  by_cases hex : ∃ v, h = strToken ++ 32 :: v
  · obtain ⟨v, rfl⟩ := hex
    rw [decodeAuthHeader_token]
    cases hd : base64Decode v with
    | none =>
      refine ⟨?_, ?_, ?_⟩
      · constructor
        · intro hcontra
          exact absurd hcontra (by simp)
        · intro hall
          exact absurd rfl (hall v)
      · constructor
        · intro _
          exact ⟨v, rfl, hd⟩
        · intro _
          rfl
      · constructor
        · rintro ⟨t, ht⟩
          exact absurd ht (by simp)
        · rintro ⟨w, hw, hsome⟩
          have hvw := token_append_inj v w hw
          subst hvw
          rw [hd] at hsome
          simp at hsome
    | some t =>
      refine ⟨?_, ?_, ?_⟩
      · constructor
        · intro hcontra
          exact absurd hcontra (by simp)
        · intro hall
          exact absurd rfl (hall v)
      · constructor
        · intro hcontra
          exact absurd hcontra (by simp)
        · rintro ⟨w, hw, hnone⟩
          have hvw := token_append_inj v w hw
          subst hvw
          rw [hd] at hnone
          exact absurd hnone (by simp)
      · constructor
        · intro _
          exact ⟨v, rfl, by rw [hd]; rfl⟩
        · intro _
          exact ⟨t, rfl⟩
  · push_neg at hex
    rw [decodeAuthHeader_not_token h hex]
    refine ⟨?_, ?_, ?_⟩
    · constructor
      · intro _
        exact hex
      · intro _
        rfl
    · constructor
      · intro hcontra
        exact absurd hcontra (by simp)
      · rintro ⟨v, hv, _⟩
        exact absurd hv (hex v)
    · constructor
      · rintro ⟨t, ht⟩
        exact absurd ht (by simp)
      · rintro ⟨v, hv, _⟩
        exact absurd hv (hex v)

/-- Master case analysis for the token.go per-request body: every run is
either a rejection through `unauthorized` (applied to a state with no
response fields, no handler call and no identity), or the fully
successful path. -/
theorem middlewareBody_cases (cfg : ResolvedConfig) (req : Request) :
    (∃ st : HandlerState, middlewareBody cfg req = unauthorized cfg.realm st ∧
      st.responseStatus = none ∧ st.handlerCalled = false ∧ st.envRemoteUser = none) ∨
    (∃ token, decodeAuthHeader req.authHeader = Except.ok token ∧
      cfg.authenticator token ≠ [] ∧ cfg.authorizer req = true ∧
      middlewareBody cfg req =
        { initState with
          authenticatorArg := some token
          envRemoteUser := some (cfg.authenticator token)
          handlerCalled := true }) := by
  rw [middlewareBody]
  split
  · exact Or.inl ⟨initState, rfl, rfl, rfl, rfl⟩
  · split
    · exact Or.inl ⟨initState, rfl, rfl, rfl, rfl⟩
    · rename_i token hdec
      split
      · exact Or.inl ⟨{ initState with authenticatorArg := some token }, rfl, rfl, rfl, rfl⟩
      · split
        · exact Or.inl ⟨{ initState with authenticatorArg := some token }, rfl, rfl, rfl, rfl⟩
        · rename_i ha hz
          exact Or.inr ⟨token, hdec, ha, by simpa using hz, rfl⟩

/-- Claim C1 (amended): every rejected request gets the identical
response — status 401, body "Not Authorized", and a challenge header of
the exact form `Token realm=<realm>` with the configured realm NOT
enclosed in quotes — regardless of the failure cause. -/
theorem unauthorized_response_uniform (cfg : ResolvedConfig) (req : Request)
    (hrej : (middlewareBody cfg req).responseStatus.isSome) :
    (middlewareBody cfg req).responseStatus = some 401 ∧
    (middlewareBody cfg req).responseBody = some strNotAuthorized ∧
    (middlewareBody cfg req).challengeHeader = some (strTokenRealmEq ++ cfg.realm) := by
  rcases middlewareBody_cases cfg req with ⟨st, heq, _, _, _⟩ | ⟨token, _, _, _, heq⟩
  · rw [heq]
    exact ⟨rfl, rfl, rfl⟩
  · rw [heq] at hrej
    simp [initState] at hrej

/-- Witness for claim C1: a request with no Authorization header against
a concrete configuration with realm "r" (byte 114). -/
theorem unauthorized_response_uniform_witness :
    (middlewareBody ⟨[114], fun _ => [], fun _ => true, 32⟩ ⟨[], []⟩).responseStatus = some 401 ∧
    (middlewareBody ⟨[114], fun _ => [], fun _ => true, 32⟩ ⟨[], []⟩).responseBody =
      some strNotAuthorized ∧
    (middlewareBody ⟨[114], fun _ => [], fun _ => true, 32⟩ ⟨[], []⟩).challengeHeader =
      some (strTokenRealmEq ++ [114]) :=
  unauthorized_response_uniform ⟨[114], fun _ => [], fun _ => true, 32⟩ ⟨[], []⟩ (by decide)

/-- Counterexample to claim C1 as stated: for realm "r" (byte 114) the
challenge header on a rejected request is "Token realm=r" — the realm is
NOT enclosed in double quotes (34), so the claimed exact form
`Token realm="r"` does not appear. -/
theorem unauthorized_challenge_not_quoted :
    (middlewareBody ⟨[114], fun _ => [], fun _ => true, 32⟩ ⟨[], []⟩).responseStatus = some 401 ∧
    (middlewareBody ⟨[114], fun _ => [], fun _ => true, 32⟩ ⟨[], []⟩).challengeHeader =
      some (strTokenRealmEq ++ [114]) ∧
    (middlewareBody ⟨[114], fun _ => [], fun _ => true, 32⟩ ⟨[], []⟩).challengeHeader ≠
      some (strTokenRealmEq ++ [34, 114, 34]) := by
  decide

/-- Claim C7: on every rejected request no identity is attached and the
wrapped handler is not invoked; the handler runs only on the fully
successful path — a decoded token the Authenticator maps to a non-empty
identity and the Authorizer accepts — and then `REMOTE_USER` holds
exactly that identity. -/
theorem rejected_no_identity_no_handler (cfg : ResolvedConfig) (req : Request) :
    ((middlewareBody cfg req).responseStatus.isSome →
      (middlewareBody cfg req).envRemoteUser = none ∧
      (middlewareBody cfg req).handlerCalled = false) ∧
    ((middlewareBody cfg req).handlerCalled = true →
      (middlewareBody cfg req).responseStatus = none ∧
      ∃ token, decodeAuthHeader req.authHeader = Except.ok token ∧
        cfg.authenticator token ≠ [] ∧ cfg.authorizer req = true ∧
        (middlewareBody cfg req).envRemoteUser = some (cfg.authenticator token)) := by
  rcases middlewareBody_cases cfg req with ⟨st, heq, h1, h2, h3⟩ | ⟨token, hdec, ha, hz, heq⟩
  · rw [heq]
    constructor
    · intro _
      exact ⟨h3, h2⟩
    · intro hcall
      exact absurd hcall (by simp [unauthorized, h2])
  · rw [heq]
    constructor
    · intro hcontra
      simp [initState] at hcontra
    · intro _
      exact ⟨rfl, token, hdec, ha, hz, rfl⟩

/-- Witness for claim C7: both branches exercised at concrete inputs —
the successful path for a valid token against an accepting configuration. -/
theorem rejected_no_identity_no_handler_witness :
    (middlewareBody ⟨[114], fun _ => [117], fun _ => true, 32⟩
        ⟨strToken ++ [32], []⟩).handlerCalled = true ∧
    (middlewareBody ⟨[114], fun _ => [117], fun _ => true, 32⟩
        ⟨strToken ++ [32], []⟩).responseStatus = none :=
  ⟨by decide,
    ((rejected_no_identity_no_handler ⟨[114], fun _ => [117], fun _ => true, 32⟩
      ⟨strToken ++ [32], []⟩).2 (by decide)).1⟩

/-- Unfolding of the token.go per-request body once the header decoded. -/
theorem middlewareBody_ok (cfg : ResolvedConfig) (req : Request) (token : List Nat)
    (hne : req.authHeader ≠ []) (hdec : decodeAuthHeader req.authHeader = Except.ok token) :
    middlewareBody cfg req =
      if cfg.authenticator token = [] then
        unauthorized cfg.realm { initState with authenticatorArg := some token }
      else if cfg.authorizer req = false then
        unauthorized cfg.realm { initState with authenticatorArg := some token }
      else
        { initState with
          authenticatorArg := some token
          envRemoteUser := some (cfg.authenticator token)
          handlerCalled := true } := by
  rw [middlewareBody, if_neg hne]
  split
  · rename_i e heq
    rw [hdec] at heq
    exact absurd heq (by simp)
  · rename_i t heq
    rw [hdec] at heq
    injection heq with h
    subst h
    rfl

/-- Claim C4: the query-parameter variant prefers a non-empty
`access_token` query parameter (the Authenticator then receives it even
when the Authorization header is garbage and the run can succeed), and
when the query parameter is empty: an empty header rejects without
invoking the Authenticator, and a header the decoder rejects also
rejects without invoking the Authenticator. -/
theorem query_param_preferred (cfg : ResolvedConfig) (req : Request) :
    (req.accessToken ≠ [] →
      (middlewareBodyQ cfg req).authenticatorArg = some req.accessToken ∧
      (cfg.authenticator req.accessToken ≠ [] → cfg.authorizer req = true →
        (middlewareBodyQ cfg req).handlerCalled = true)) ∧
    (req.accessToken = [] → req.authHeader = [] →
      middlewareBodyQ cfg req = unauthorized cfg.realm initState ∧
      (middlewareBodyQ cfg req).authenticatorArg = none) ∧
    (req.accessToken = [] → ∀ e, decodeAuthHeaderWire req.authHeader = Except.error e →
      (middlewareBodyQ cfg req).authenticatorArg = none ∧
      (middlewareBodyQ cfg req).responseStatus = some 401) := by
  refine ⟨?_, ?_, ?_⟩
  · intro hq
    have hq' : req.accessToken.length > 0 := List.length_pos.mpr hq
    rw [middlewareBodyQ, if_pos hq']
    constructor
    · split
      · rfl
      · split
        · rfl
        · rfl
    · intro ha hz
      rw [if_neg ha, if_neg (by simp [hz])]
  · intro hq hh
    have hq0 : ¬ req.accessToken.length > 0 := by simp [hq]
    rw [middlewareBodyQ, if_neg hq0, if_pos hh]
    exact ⟨rfl, rfl⟩
  · intro hq e hdec
    have hq0 : ¬ req.accessToken.length > 0 := by simp [hq]
    by_cases hh : req.authHeader = []
    · rw [middlewareBodyQ, if_neg hq0, if_pos hh]
      exact ⟨rfl, rfl⟩
    · rw [middlewareBodyQ, if_neg hq0, if_neg hh]
      split
      · exact ⟨rfl, rfl⟩
      · rename_i t heq
        rw [hdec] at heq
        exact absurd heq (by simp)

/-- Witness for claim C4: query token "q" (byte 113) together with a
garbage Authorization header "BB" still authenticates and succeeds. -/
theorem query_param_preferred_witness :
    (middlewareBodyQ ⟨[114], fun t => t, fun _ => true, 32⟩
        ⟨[66, 66], [113]⟩).authenticatorArg = some [113] ∧
    (middlewareBodyQ ⟨[114], fun t => t, fun _ => true, 32⟩
        ⟨[66, 66], [113]⟩).handlerCalled = true := by
  have h := (query_param_preferred ⟨[114], fun t => t, fun _ => true, 32⟩
    ⟨[66, 66], [113]⟩).1 (by decide)
  exact ⟨h.1, h.2 (by decide) (by decide)⟩

/-- Claim C9 (amended): the header "Token " (scheme, one space, empty
value) decodes successfully to the empty token and the Authenticator is
invoked with the empty string; when the Authorizer accepts, rejection
then depends solely on the Authenticator returning the empty identity
(a configured Authorizer returning false can still reject afterwards). -/
theorem empty_token_header_authenticates (cfg : ResolvedConfig) (req : Request)
    (hh : req.authHeader = strToken ++ [32]) :
    decodeAuthHeader req.authHeader = Except.ok [] ∧
    (middlewareBody cfg req).authenticatorArg = some [] ∧
    (cfg.authorizer req = true →
      ((middlewareBody cfg req).responseStatus.isSome ↔ cfg.authenticator [] = [])) := by
  have hdec : decodeAuthHeader req.authHeader = Except.ok [] := by
    rw [hh]
    rw [show strToken ++ [32] = strToken ++ 32 :: ([] : List Nat) from rfl, decodeAuthHeader_token]
    rfl
  have hne : req.authHeader ≠ [] := by rw [hh]; simp
  rw [middlewareBody_ok cfg req [] hne hdec]
  refine ⟨hdec, ?_, ?_⟩
  · split
    · rfl
    · split
      · rfl
      · rfl
  · intro hz
    by_cases ha : cfg.authenticator [] = []
    · rw [if_pos ha]
      simp [unauthorized, initState, ha]
    · rw [if_neg ha, if_neg (by simp [hz])]
      simp [initState, ha]

/-- Witness for claim C9 at a concrete configuration whose Authenticator
rejects everything: the empty-value header is decoded, the Authenticator
runs on the empty token, and the request is rejected. -/
theorem empty_token_header_authenticates_witness :
    decodeAuthHeader (strToken ++ [32]) = Except.ok [] ∧
    (middlewareBody ⟨[114], fun _ => [], fun _ => true, 32⟩
        ⟨strToken ++ [32], []⟩).authenticatorArg = some [] ∧
    (middlewareBody ⟨[114], fun _ => [], fun _ => true, 32⟩
        ⟨strToken ++ [32], []⟩).responseStatus.isSome := by
  have h := empty_token_header_authenticates
    ⟨[114], fun _ => [], fun _ => true, 32⟩ ⟨strToken ++ [32], []⟩ rfl
  exact ⟨h.1, h.2.1, (h.2.2 (by decide)).mpr (by decide)⟩

/-- Counterexample to claim C9 as stated: a configured Authorizer that
returns false rejects a "Token " request even though the Authenticator
returned the non-empty identity "u" (byte 117) — so rejection does not
depend solely on the Authenticator returning the empty identity. -/
theorem empty_token_header_authorizer_reject :
    (middlewareBody ⟨[114], fun _ => [117], fun _ => false, 32⟩
        ⟨strToken ++ [32], []⟩).responseStatus = some 401 ∧
    (middlewareBody ⟨[114], fun _ => [117], fun _ => false, 32⟩
        ⟨strToken ++ [32], []⟩).authenticatorArg = some [] ∧
    ([117] : List Nat) ≠ [] := by
  decide

/-- Claim C6: for every positive entropy `n`, a successful `New` returns
the base64 encoding of the `n` random bytes — it decodes back to exactly
those `n` bytes and its length is the fixed function `4 * ((n + 2) / 3)`
of `n` alone — and a read error from the random source is returned to
the caller with no token produced. -/
theorem New_spec (n : Nat) (hn : 0 < n) :
    (∀ e, New ((n : Int)) (Except.error e) = some (Except.error e)) ∧
    (∀ bs : List Nat, bs.length = n → (∀ b ∈ bs, b < 256) →
      New ((n : Int)) (Except.ok bs) = some (Except.ok (base64Encode bs)) ∧
      base64Decode (base64Encode bs) = some bs ∧
      (base64Encode bs).length = 4 * ((n + 2) / 3)) := by
  have hmk : makeByteSlice ((n : Int)) = some (List.replicate n 0) := by
    rw [makeByteSlice, if_neg (by omega)]
    simp
  constructor
  · intro e
    rw [New.eq_def, hmk]
  · intro bs hlen hbound
    refine ⟨by rw [New.eq_def, hmk], base64Decode_encode bs hbound, ?_⟩
    rw [base64Encode_length, hlen]

/-- Witness for claim C6 at entropy 2 with random bytes [5, 200] and a
concrete read error "x" (byte 120). -/
theorem New_spec_witness :
    New ((2 : Int)) (Except.error [120]) = some (Except.error [120]) ∧
    New ((2 : Int)) (Except.ok [5, 200]) = some (Except.ok (base64Encode [5, 200])) ∧
    base64Decode (base64Encode [5, 200]) = some [5, 200] ∧
    (base64Encode [5, 200]).length = 4 * ((2 + 2) / 3) := by
  have h := New_spec 2 (by decide)
  have h2 := h.2 [5, 200] (by decide) (by decide)
  exact ⟨h.1 [120], h2.1, h2.2.1, h2.2.2⟩

/-- Claim C8: setup fails fatally exactly on an empty realm or a missing
Authenticator (and per-request processing is only ever entered with a
fully resolved configuration); at setup a missing Authorizer is replaced
by the always-true callback and a zero entropy by 32, while present
values are kept. -/
theorem middlewareSetup_spec (mw : MwConfig) :
    ((∃ e, middlewareSetup mw = Except.error e) ↔ mw.realm = [] ∨ mw.authenticator = none) ∧
    (∀ rc, middlewareSetup mw = Except.ok rc →
      rc.realm = mw.realm ∧
      mw.authenticator = some rc.authenticator ∧
      (mw.authorizer = none → rc.authorizer = fun _ => true) ∧
      (∀ a, mw.authorizer = some a → rc.authorizer = a) ∧
      (mw.tokenEntropy = 0 → rc.tokenEntropy = 32) ∧
      (mw.tokenEntropy ≠ 0 → rc.tokenEntropy = mw.tokenEntropy)) := by
  by_cases hr : mw.realm = []
  · rw [middlewareSetup]
    rw [if_pos hr]
    constructor
    · constructor
      · intro _
        exact Or.inl hr
      · intro _
        exact ⟨ConfigError.realmRequired, rfl⟩
    · intro rc hrc
      exact absurd hrc (by simp)
  · rw [middlewareSetup, if_neg hr]
    cases hauth : mw.authenticator with
    | none =>
      constructor
      · constructor
        · intro _
          exact Or.inr rfl
        · intro _
          exact ⟨ConfigError.authenticatorRequired, rfl⟩
      · intro rc hrc
        exact absurd hrc (by simp)
    | some auth =>
      constructor
      · constructor
        · rintro ⟨e, he⟩
          exact absurd he (by simp)
        · rintro (h | h)
          · exact absurd h hr
          · exact Option.noConfusion h
      · intro rc hrc
        simp only [Except.ok.injEq] at hrc
        subst hrc
        refine ⟨rfl, rfl, ?_, ?_, ?_, ?_⟩
        · intro hz
          rw [hz]
        · intro a haz
          rw [haz]
        · intro h0
          simp [h0]
        · intro h0
          simp [h0]

/-- Witness for claim C8: a configuration with realm "r", an
Authenticator, no Authorizer and zero entropy resolves with the default
always-true Authorizer and entropy 32; dropping the realm instead gives
a setup error. -/
theorem middlewareSetup_spec_witness :
    (∃ rc, middlewareSetup ⟨[114], some (fun _ => []), none, 0⟩ = Except.ok rc ∧
      rc.tokenEntropy = 32 ∧ rc.authorizer = fun _ => true) ∧
    (middlewareSetup ⟨[], some (fun _ => []), none, 0⟩ = Except.error ConfigError.realmRequired ∨
      middlewareSetup ⟨[], some (fun _ => []), none, 0⟩ =
        Except.error ConfigError.authenticatorRequired) := by
  constructor
  · rcases hrc : middlewareSetup ⟨[114], some (fun _ => []), none, 0⟩ with e | rc
    · have h := (middlewareSetup_spec ⟨[114], some (fun _ => []), none, 0⟩).1.mp ⟨e, hrc⟩
      simp at h
    · have h := (middlewareSetup_spec ⟨[114], some (fun _ => []), none, 0⟩).2 rc hrc
      exact ⟨rc, rfl, h.2.2.2.2.1 rfl, h.2.2.1 rfl⟩
  · have h := (middlewareSetup_spec ⟨[], some (fun _ => []), none, 0⟩).1.mpr (Or.inl rfl)
    obtain ⟨e, he⟩ := h
    cases e with
    | realmRequired => exact Or.inl he
    | authenticatorRequired => exact Or.inr he

/-- Claim C10: the entropy default fires only when `TokenEntropy` is
exactly zero — a negative value passes setup unchanged — and `New`
panics (returns no value at all, not an error value) exactly on a
negative entropy, being total for every non-negative one. -/
theorem negative_entropy_unvalidated :
    (∀ (mw : MwConfig) rc, middlewareSetup mw = Except.ok rc →
      rc.tokenEntropy = if mw.tokenEntropy = 0 then 32 else mw.tokenEntropy) ∧
    (∀ e : Int, e < 0 → ∀ r, New e r = none) ∧
    (∀ e : Int, 0 ≤ e → ∀ r, New e r ≠ none) := by
  refine ⟨?_, ?_, ?_⟩
  · intro mw rc hrc
    rw [middlewareSetup] at hrc
    by_cases hr : mw.realm = []
    · rw [if_pos hr] at hrc
      exact absurd hrc (by simp)
    · rw [if_neg hr] at hrc
      cases hauth : mw.authenticator with
      | none =>
        rw [hauth] at hrc
        exact absurd hrc (by simp)
      | some auth =>
        rw [hauth] at hrc
        simp only [Except.ok.injEq] at hrc
        subst hrc
        rfl
  · intro e he r
    rw [New.eq_def, makeByteSlice, if_pos he]
  · intro e he r
    rw [New.eq_def, makeByteSlice, if_neg (by omega)]
    cases r with
    | error msg => simp
    | ok bs => simp

/-- Witness for claim C10: entropy -1 passes setup unchanged for a
well-formed configuration, and `New` at entropy -1 panics while at 0 it
returns a value. -/
theorem negative_entropy_unvalidated_witness :
    (∀ rc, middlewareSetup ⟨[114], some (fun _ => []), none, -1⟩ = Except.ok rc →
      rc.tokenEntropy = -1) ∧
    New (-1) (Except.ok []) = none ∧
    New 0 (Except.ok []) ≠ none := by
  have h := negative_entropy_unvalidated
  refine ⟨?_, h.2.1 (-1) (by decide) (Except.ok []), h.2.2 0 (by decide) (Except.ok [])⟩
  intro rc hrc
  have := h.1 ⟨[114], some (fun _ => []), none, -1⟩ rc hrc
  simpa using this

end TokenAuth
